import Mathlib

/-!
Verification of the comparison engine and diff renderer of the Gmail clone
testing extension.

The definitions below are a shallow embedding of two source files:

* `extension/panel/api-client.js` — the `ComparisonEngine` class:
  `executeDual`, `generateDiff`, `compareObjects`, `compareArrays`,
  `shouldIgnoreField`, `getType`, and the `DEFAULT_IGNORE_FIELDS` list;
* `extension/panel/diff-renderer.js` — `getDiffClassForPath`,
  `isIgnoredField`, and the path-visiting structure of
  `highlightJsonWithDiff`.

JSON values are modelled by the inductive type `Json`; `undef` stands for
the JavaScript value `undefined`, which can reach the comparison functions
as an input or as a stored record field.  Numbers are modelled by `Int`:
every claim only compares numbers for equality, never computes with them,
and JSON documents cannot contain `NaN` or infinities, so the float
representation is irrelevant here.

Each difference record in the source also carries a human-readable
`message` string assembled from the same data as the other fields; it is
display-only, no claim mentions it, and it is omitted from `DiffRecord`.
-/

/-- JavaScript/JSON values as seen by the comparison engine. -/
inductive Json where
  | undef
  | null
  | bool (b : Bool)
  | num (n : Int)
  | str (s : String)
  | arr (items : List Json)
  | obj (fields : List (String × Json))

/-- One difference record of `compareObjects`/`generateDiff`.  The
display-only `message` field of the source is omitted (see the file
comment). -/
structure DiffRecord where
  path : String
  type : String
  real : Json
  clone : Json
  severity : String

/-- The `summary` object of a diff result. -/
structure DiffSummary where
  count : Nat
  paths : List String

/-- The result shape of `generateDiff`. -/
structure DiffResult where
  hasDifferences : Bool
  summary : DiffSummary
  details : List DiffRecord

/-- Source `getType` (api-client.js): `null`, `undefined` and arrays are
distinguished before falling back to `typeof`. -/
def getType : Json → String
  | .null => "null"
  | .undef => "undefined"
  | .arr _ => "array"
  | .bool _ => "boolean"
  | .num _ => "number"
  | .str _ => "string"
  | .obj _ => "object"

/-- JavaScript falsiness, as used by the `!realResponse` tests in
`generateDiff`: `undefined`, `null`, `false`, `0` and `""` are falsy;
arrays and objects are always truthy. -/
def falsy : Json → Bool
  | .undef => true
  | .null => true
  | .bool b => !b
  | .num n => n == 0
  | .str s => s == ""
  | .arr _ => false
  | .obj _ => false

/-- JavaScript strict equality `===` restricted to the primitive case of
`compareObjects` (both sides already have the same `getType`, and arrays
and objects never reach this comparison). -/
def primEq : Json → Json → Bool
  | .undef, .undef => true
  | .null, .null => true
  | .bool a, .bool b => a == b
  | .num a, .num b => a == b
  | .str a, .str b => a == b
  | _, _ => false

/-- JavaScript property access `obj[key]` on an object modelled as an
association list; the first binding wins. -/
def lookupJ : List (String × Json) → String → Option Json
  | [], _ => none
  | (k, v) :: rest, key => if k = key then some v else lookupJ rest key

/-- JavaScript `key in obj`. -/
def hasKey (fields : List (String × Json)) (key : String) : Bool :=
  (lookupJ fields key).isSome

/-- Source path extension: `path ? path + "." + key : key`. -/
def joinPath (path key : String) : String :=
  if path = "" then key else path ++ "." ++ key

/-- Source `path || "<root>"`. -/
def pathOrRoot (path : String) : String :=
  if path = "" then "<root>" else path

/-- Tokens of the regular expression built by `shouldIgnoreField`:
`new RegExp("^" + pattern.replace(/\x2a/g, ".*") + "$")`.  A `*` becomes
the match-anything token, a `.` is the regex any-character metacharacter,
and every other character of the patterns in use is a regex literal. -/
inductive RTok where
  | lit (c : Char)
  | anyChar
  | manyAny

/-- Compile an ignore pattern exactly as the source does: each `*` becomes
`.*`; the result is anchored at both ends by `rmatch` matching the whole
string. -/
def compilePattern (p : List Char) : List RTok :=
  p.map (fun c => if c = '*' then .manyAny else if c = '.' then .anyChar else .lit c)

/-- Whole-string matching of a compiled pattern, the language semantics of
the anchored regex the source builds: the match-anything token consumes an
arbitrary suffix. -/
def rmatch : List RTok → List Char → Bool
  | [], s => s.isEmpty
  | .lit _ :: _, [] => false
  | .lit c :: ts, d :: ds => c == d && rmatch ts ds
  | .anyChar :: _, [] => false
  | .anyChar :: ts, _ :: ds => rmatch ts ds
  | .manyAny :: ts, s => s.tails.any (fun s2 => rmatch ts s2)

/-- Source `shouldIgnoreField` (api-client.js): exact field-name match,
exact full-path match, then wildcard patterns (only entries containing a
`*` are tried as regexes). -/
def shouldIgnoreField (fullPath fieldName : String) (ignoreFields : List String) : Bool :=
  ignoreFields.contains fieldName ||
  ignoreFields.contains fullPath ||
  ignoreFields.any (fun pattern =>
    pattern.toList.contains '*' &&
    rmatch (compilePattern pattern.toList) fullPath.toList)

/-- Array element path `path[i]`, as interpolated by both source files. -/
def elemPath (path : String) (i : Nat) : String :=
  path ++ "[" ++ toString i ++ "]"

/-- Records emitted by the element loop of `compareArrays` for indices at
or beyond the real array's length: one `missing_in_real` per remaining
clone element. -/
def extraCloneElems : List Json → String → Nat → List DiffRecord
  | [], _, _ => []
  | c :: cs, path, i =>
    ⟨elemPath path i, "missing_in_real", .undef, c, "medium"⟩ :: extraCloneElems cs path (i + 1)

/-- Records emitted by the element loop of `compareArrays` for indices at
or beyond the clone array's length: one `missing_in_clone` per remaining
real element. -/
def extraRealElems : List Json → String → Nat → List DiffRecord
  | [], _, _ => []
  | r :: rs, path, i =>
    ⟨elemPath path i, "missing_in_clone", r, .undef, "medium"⟩ :: extraRealElems rs path (i + 1)

/-- Second half of the key-union loop of `compareObjects`: the source
iterates `new Set([...Object.keys(realObj), ...Object.keys(cloneObj)])`,
i.e. the real object's keys first and then the clone-only keys in clone
order.  This function walks the clone's bindings, skips keys already seen
(the set semantics) and keys present in the real object (those were
handled by the first half), and emits one `missing_in_real` record per
remaining non-ignored key.  No recursion happens for a key missing on one
side. -/
def cloneOnlyKeys :
    List (String × Json) → List String → List (String × Json) → String → List String →
    List DiffRecord
  | [], _, _, _, _ => []
  | (key, cv) :: rest, seen, rf, path, ignoreFields =>
      if seen.contains key || hasKey rf key then
        cloneOnlyKeys rest (key :: seen) rf path ignoreFields
      else
        (if shouldIgnoreField (joinPath path key) key ignoreFields then []
         else [⟨joinPath path key, "missing_in_real", .undef, cv, "medium"⟩]) ++
        cloneOnlyKeys rest (key :: seen) rf path ignoreFields

/-- The `array_length_mismatch` record of `compareArrays`, emitted exactly
when the lengths differ and carrying both lengths. -/
def lengthRecord (realArr cloneArr : List Json) (path : String) : List DiffRecord :=
  if realArr.length ≠ cloneArr.length then
    [⟨path ++ ".length", "array_length_mismatch",
      .num realArr.length, .num cloneArr.length, "medium"⟩]
  else []

mutual

/-- Source `compareObjects` (api-client.js): type mismatch short-circuits
the subtree; arrays delegate to the array comparison (inlined here so the
mutual recursion is structural — `compareArrays` below is the named
wrapper); objects walk the key union (split into the two passes
`compareOwnKeys` and `cloneOnlyKeys`, preserving the union's order);
primitives compare with strict equality. -/
def compareObjects (realObj cloneObj : Json) (path : String) (ignoreFields : List String) :
    List DiffRecord :=
  if getType realObj ≠ getType cloneObj then
    [⟨pathOrRoot path, "type_mismatch", realObj, cloneObj, "high"⟩]
  else
    match realObj, cloneObj with
    | .arr ra, .arr ca =>
        lengthRecord ra ca path ++ compareElems ra ca path ignoreFields 0
    | .obj rf, .obj cf =>
        compareOwnKeys rf [] cf path ignoreFields ++ cloneOnlyKeys cf [] rf path ignoreFields
    | r, c =>
        if primEq r c then []
        else [⟨pathOrRoot path, "value_mismatch", r, c, "high"⟩]

/-- The index loop of `compareArrays`: `for i in 0..max(len, len)-1`,
emitting a missing-side record when one array is exhausted and recursing
into `compareObjects` when both sides have the element. -/
def compareElems : List Json → List Json → String → List String → Nat → List DiffRecord
  | [], cs, path, _, i => extraCloneElems cs path i
  | rs, [], path, _, i => extraRealElems rs path i
  | r :: rs, c :: cs, path, ignoreFields, i =>
      compareObjects r c (elemPath path i) ignoreFields ++
      compareElems rs cs path ignoreFields (i + 1)

/-- First half of the key-union loop of `compareObjects`: the real
object's keys in order (`seen` realizes the `Set` deduplication).  An
ignored key is skipped entirely; a key absent from the clone yields one
`missing_in_clone` record; otherwise the values are compared
recursively. -/
def compareOwnKeys :
    List (String × Json) → List String → List (String × Json) → String → List String →
    List DiffRecord
  | [], _, _, _, _ => []
  | (key, rv) :: rest, seen, cf, path, ignoreFields =>
      if seen.contains key then
        compareOwnKeys rest seen cf path ignoreFields
      else
        (if shouldIgnoreField (joinPath path key) key ignoreFields then []
         else
           match lookupJ cf key with
           | some cv => compareObjects rv cv (joinPath path key) ignoreFields
           | none => [⟨joinPath path key, "missing_in_clone", rv, .undef, "medium"⟩]) ++
        compareOwnKeys rest (key :: seen) cf path ignoreFields

end

/-- Source `compareArrays` (api-client.js): length record first (it does
not stop the loop), then the per-element walk. -/
def compareArrays (realArr cloneArr : List Json) (path : String) (ignoreFields : List String) :
    List DiffRecord :=
  lengthRecord realArr cloneArr path ++ compareElems realArr cloneArr path ignoreFields 0

/-- Source `DEFAULT_IGNORE_FIELDS` (api-client.js). -/
def DEFAULT_IGNORE_FIELDS : List String :=
  ["id", "labelId", "threadId", "messageId", "historyId", "internalDate", "sizeEstimate"]

/-- Source `generateDiff` (api-client.js).  The absence checks are the
JavaScript truthiness tests `!realResponse && !cloneResponse` and
`!realResponse || !cloneResponse`; the ignore list defaults to
`DEFAULT_IGNORE_FIELDS` at the call site and is passed explicitly here. -/
def generateDiff (realResponse cloneResponse : Json)
    (ignoreFields : List String) : DiffResult :=
  if falsy realResponse && falsy cloneResponse then
    ⟨false, ⟨0, []⟩, []⟩
  else if falsy realResponse || falsy cloneResponse then
    ⟨true, ⟨1, ["<root>"]⟩,
     [⟨"<root>", "missing_response", realResponse, cloneResponse, "high"⟩]⟩
  else
    let differences := compareObjects realResponse cloneResponse "" ignoreFields
    ⟨decide (differences.length > 0),
     ⟨differences.length, differences.map (fun d => d.path)⟩,
     differences⟩

/-! Renderer: diff-renderer.js -/

/-- Source `diff.details.find(d => d.path === path)`. -/
def findPath (details : List DiffRecord) (path : String) : Option DiffRecord :=
  details.find? (fun d => d.path == path)

/-- The parent and root checks of `getDiffClassForPath`: is there a record
at this path whose type is `type_mismatch`? -/
def typeMismatchAt (details : List DiffRecord) (path : String) : Bool :=
  match findPath details path with
  | some d => d.type == "type_mismatch"
  | none => false

/-- JavaScript `path.split(".").pop()`: the text after the last dot, the
whole string when there is none, and `""` for `""`. -/
def afterLastDot (l : List Char) : List Char :=
  (l.reverse.takeWhile (fun c => c ≠ '.')).reverse

/-- JavaScript `s.split("[")[0]`: the text before the first bracket. -/
def beforeFirstBracket (l : List Char) : List Char :=
  l.takeWhile (fun c => c ≠ '[')

/-- The field-name extraction of the renderer's `isIgnoredField`:
`path.split(".").pop().split("[")[0]`. -/
def lastSegment (path : String) : String :=
  ⟨beforeFirstBracket (afterLastDot path.toList)⟩

/-- The fixed list `ignoredPatterns` declared inside the renderer's
`isIgnoredField` (diff-renderer.js); it is independent of the engine's
ignore list. -/
def ignoredPatterns : List String :=
  ["id", "labelId", "threadId", "messageId", "historyId"]

/-- Source `isIgnoredField` (diff-renderer.js); the `diff` parameter is
unused in the source as well. -/
def isIgnoredField (path : String) (_diff : DiffResult) : Bool :=
  ignoredPatterns.contains (lastSegment path)

/-- JavaScript `s.substring(0, s.lastIndexOf(c))` for a character known to
occur in `s`. -/
def beforeLastChar (c : Char) (l : List Char) : List Char :=
  ((l.reverse.dropWhile (fun d => d ≠ c)).drop 1).reverse

/-- The parent-path extraction of `getDiffClassForPath`: truncate at the
last dot when the path contains one, else at the last bracket, else the
empty string.  (For a path like `a.b[2]` this yields `a`, not `a.b`: the
dot branch wins whenever any dot is present.) -/
def parentPathOf (path : String) : String :=
  if path.toList.contains '.' then ⟨beforeLastChar '.' path.toList⟩
  else if path.toList.contains '[' then ⟨beforeLastChar '[' path.toList⟩
  else ""

/-- Source `getDiffClassForPath` (diff-renderer.js).  The source's
`!diff || !diff.details` guard is unrepresentable here: a `DiffResult`
always has a details list. -/
def getDiffClassForPath (diff : DiffResult) (path : String) (mode : String) : String :=
  match findPath diff.details path with
  | some difference =>
    if difference.type == "value_mismatch" || difference.type == "type_mismatch" ||
        difference.type == "array_length_mismatch" then "diff-mismatch"
    else if difference.type == "missing_in_real" then
      (if mode == "clone" then "diff-mismatch" else "")
    else if difference.type == "missing_in_clone" then
      (if mode == "real" then "diff-mismatch" else "")
    else ""
  | none =>
    if isIgnoredField path diff then "diff-ignored"
    else if diff.hasDifferences && path != "" then
      (if typeMismatchAt diff.details (parentPathOf path) then "diff-mismatch"
       else if typeMismatchAt diff.details "<root>" then "diff-mismatch"
       else "diff-match")
    else ""

mutual

/-- The paths at which `highlightJsonWithDiff` (diff-renderer.js) calls
`getDiffClassForPath` while rendering a value at `path`: leaves report
their own path, arrays recurse at `path[i]`, and objects consult every key
path and recurse there.  A path absent from the rendered tree is never
consulted. -/
def visitedPaths : Json → String → List String
  | .null, path => [path]
  | .undef, path => [path]
  | .arr items, path => visitedArr items path 0
  | .obj fields, path => visitedObj fields path
  | _, path => [path]

/-- Element traversal of `highlightJsonWithDiff` for arrays. -/
def visitedArr : List Json → String → Nat → List String
  | [], _, _ => []
  | x :: xs, path, i => visitedPaths x (elemPath path i) ++ visitedArr xs path (i + 1)

/-- Key traversal of `highlightJsonWithDiff` for objects. -/
def visitedObj : List (String × Json) → String → List String
  | [], _ => []
  | (k, v) :: rest, path =>
      joinPath path k :: (visitedPaths v (joinPath path k) ++ visitedObj rest path)

end

/-! Reflexivity machinery -/

theorem lookupJ_mem (f : List (String × Json)) (k : String) (v : Json)
    (h : lookupJ f k = some v) : (k, v) ∈ f := by
  induction f with
  | nil => simp [lookupJ] at h
  | cons kv rest ih =>
    obtain ⟨k1, v1⟩ := kv
    by_cases hk : k1 = k
    · subst hk
      simp [lookupJ] at h
      simp [h]
    · simp [lookupJ, hk] at h
      exact List.mem_cons_of_mem _ (ih h)

theorem hasKey_of_mem (f : List (String × Json)) (k : String) (v : Json)
    (h : (k, v) ∈ f) : hasKey f k = true := by
  induction f with
  | nil => simp at h
  | cons kv rest ih =>
    obtain ⟨k1, v1⟩ := kv
    by_cases hk : k1 = k
    · simp [hasKey, lookupJ, hk]
    · rcases List.mem_cons.mp h with h1 | h1
      · exact absurd (congrArg Prod.fst h1).symm hk
      · simpa [hasKey, lookupJ, hk] using ih h1

theorem cloneOnlyKeys_all_present (walked : List (String × Json)) :
    ∀ (seen : List String) (rf : List (String × Json)) (p : String) (ig : List String),
      (∀ kv ∈ walked, hasKey rf kv.1 = true) →
      cloneOnlyKeys walked seen rf p ig = [] := by
  induction walked with
  | nil => intro seen rf p ig _; simp [cloneOnlyKeys]
  | cons kv rest ih =>
    intro seen rf p ig h
    obtain ⟨k, cv⟩ := kv
    have hk : hasKey rf k = true := h (k, cv) (List.mem_cons_self _ _)
    simp only [cloneOnlyKeys, hk, Bool.or_true, if_true]
    exact ih (k :: seen) rf p ig (fun kv hkv => h kv (List.mem_cons_of_mem _ hkv))

theorem compareOwnKeys_self (walked : List (String × Json)) :
    ∀ (seen : List String) (f : List (String × Json)) (p : String) (ig : List String),
      (∀ kv ∈ walked, ∀ (p2 : String) (ig2 : List String),
        compareObjects kv.2 kv.2 p2 ig2 = []) →
      (∀ k, seen.contains k = false → lookupJ walked k = lookupJ f k) →
      compareOwnKeys walked seen f p ig = [] := by
  induction walked with
  | nil => intro seen f p ig _ _; simp [compareOwnKeys]
  | cons kv rest ih =>
    intro seen f p ig hrefl hinv
    obtain ⟨k0, rv⟩ := kv
    by_cases hseen : seen.contains k0
    · simp only [compareOwnKeys, hseen, if_true]
      refine ih seen f p ig (fun kv hkv => hrefl kv (List.mem_cons_of_mem _ hkv)) ?_
      intro k hk
      have hne : k ≠ k0 := by
        intro he; subst he; rw [hk] at hseen; exact Bool.noConfusion hseen
      have := hinv k hk
      rwa [lookupJ, if_neg (fun he => hne he.symm)] at this
    · have hseen2 : seen.contains k0 = false := by
        exact Bool.not_eq_true _ ▸ (by simpa using hseen)
      have hlook : lookupJ f k0 = some rv := by
        have := hinv k0 hseen2
        rw [lookupJ, if_pos rfl] at this
        exact this.symm
      simp only [compareOwnKeys, hseen2, Bool.false_eq_true, if_false, hlook]
      rw [hrefl (k0, rv) (List.mem_cons_self _ _)]
      simp only [ite_self, List.nil_append]
      refine ih (k0 :: seen) f p ig (fun kv hkv => hrefl kv (List.mem_cons_of_mem _ hkv)) ?_
      intro k hk
      have hk0 : (k == k0) = false := by
        by_cases he : k = k0
        · subst he; simp [List.contains] at hk
        · simp [he]
      have hkseen : seen.contains k = false := by
        simp [List.contains] at hk ⊢
        intro hmem
        rcases hk with ⟨h1, h2⟩
        exact h2 hmem
      have := hinv k hkseen
      have hne : k0 ≠ k := by
        intro he; subst he; simp at hk0
      rwa [lookupJ, if_neg hne] at this

theorem compareElems_self (l : List Json) :
    ∀ (p : String) (ig : List String) (i : Nat),
      (∀ x ∈ l, ∀ (p2 : String) (ig2 : List String), compareObjects x x p2 ig2 = []) →
      compareElems l l p ig i = [] := by
  induction l with
  | nil => intro p ig i _; simp [compareElems, extraCloneElems]
  | cons x xs ih =>
    intro p ig i h
    simp only [compareElems]
    rw [h x (List.mem_cons_self _ _), ih p ig (i + 1)
      (fun y hy => h y (List.mem_cons_of_mem _ hy))]
    rfl

theorem compareObjects_self_aux (n : Nat) :
    ∀ (v : Json), sizeOf v ≤ n → ∀ (p : String) (ig : List String),
      compareObjects v v p ig = [] := by
  induction n with
  | zero =>
    intro v hv
    exact absurd hv (by cases v <;> simp)
  | succ n ih =>
    intro v hv p ig
    match v with
    | .undef => simp [compareObjects, primEq]
    | .null => simp [compareObjects, primEq]
    | .bool b => simp [compareObjects, primEq]
    | .num m => simp [compareObjects, primEq]
    | .str s => simp [compareObjects, primEq]
    | .arr items =>
      have hsz : ∀ x ∈ items, sizeOf x ≤ n := by
        intro x hx
        have h1 : sizeOf x < sizeOf items := List.sizeOf_lt_of_mem hx
        have h2 : sizeOf (Json.arr items) = 1 + sizeOf items := by simp
        omega
      simp only [compareObjects, ne_eq, not_true_eq_false, if_false, reduceIte]
      rw [compareElems_self items p ig 0 (fun x hx => ih x (hsz x hx))]
      simp [lengthRecord]
    | .obj fields =>
      have hsz : ∀ kv ∈ fields, sizeOf kv.2 ≤ n := by
        intro kv hkv
        have h1 : sizeOf kv < sizeOf fields := List.sizeOf_lt_of_mem hkv
        obtain ⟨k1, v1⟩ := kv
        have h2 : sizeOf (Json.obj fields) = 1 + sizeOf fields := by simp
        have h3 : sizeOf (k1, v1) = 1 + sizeOf k1 + sizeOf v1 := by simp
        simp only [] at h1 ⊢
        omega
      simp only [compareObjects, ne_eq, not_true_eq_false, if_false, reduceIte]
      rw [compareOwnKeys_self fields [] fields p ig
        (fun kv hkv => ih kv.2 (hsz kv hkv)) (fun k _ => rfl)]
      rw [cloneOnlyKeys_all_present fields [] fields p ig
        (fun kv hkv => hasKey_of_mem fields kv.1 kv.2 hkv)]
      rfl

theorem compareObjects_self (v : Json) (p : String) (ig : List String) :
    compareObjects v v p ig = [] :=
  compareObjects_self_aux (sizeOf v) v (Nat.le_refl _) p ig

/-! Array walk characterization (for C4) -/

theorem flatMap_congr_mem {α β : Type} (l : List α) (f g : α → List β)
    (h : ∀ a ∈ l, f a = g a) : l.flatMap f = l.flatMap g := by
  induction l with
  | nil => rfl
  | cons x xs ih =>
    rw [List.flatMap_cons, List.flatMap_cons, h x (List.mem_cons_self _ _),
      ih (fun a ha => h a (List.mem_cons_of_mem _ ha))]

theorem extraCloneElems_range (ca : List Json) :
    ∀ (p : String) (k : Nat),
      extraCloneElems ca p k =
        (List.range ca.length).flatMap (fun j =>
          [⟨elemPath p (k + j), "missing_in_real", .undef, ca.getD j .undef, "medium"⟩]) := by
  induction ca with
  | nil => intro p k; simp [extraCloneElems]
  | cons c cs ih =>
    intro p k
    rw [extraCloneElems, List.length_cons, List.range_succ_eq_map, List.flatMap_cons,
      List.flatMap_map, ih p (k + 1)]
    simp only [Nat.add_zero, List.getD_cons_zero, List.singleton_append]
    congr 1
    apply flatMap_congr_mem
    intro j _
    simp only [Function.comp, Nat.succ_eq_add_one, List.getD_cons_succ]
    have hx : k + 1 + j = k + (j + 1) := by omega
    rw [hx]

theorem extraRealElems_range (ra : List Json) :
    ∀ (p : String) (k : Nat),
      extraRealElems ra p k =
        (List.range ra.length).flatMap (fun j =>
          [⟨elemPath p (k + j), "missing_in_clone", ra.getD j .undef, .undef, "medium"⟩]) := by
  induction ra with
  | nil => intro p k; simp [extraRealElems]
  | cons r rs ih =>
    intro p k
    rw [extraRealElems, List.length_cons, List.range_succ_eq_map, List.flatMap_cons,
      List.flatMap_map, ih p (k + 1)]
    simp only [Nat.add_zero, List.getD_cons_zero, List.singleton_append]
    congr 1
    apply flatMap_congr_mem
    intro j _
    simp only [Function.comp, Nat.succ_eq_add_one, List.getD_cons_succ]
    have hx : k + 1 + j = k + (j + 1) := by omega
    rw [hx]

theorem compareElems_range (ra : List Json) :
    ∀ (ca : List Json) (p : String) (ig : List String) (k : Nat),
      compareElems ra ca p ig k =
        (List.range (max ra.length ca.length)).flatMap (fun j =>
          if ra.length ≤ j then
            [⟨elemPath p (k + j), "missing_in_real", .undef, ca.getD j .undef, "medium"⟩]
          else if ca.length ≤ j then
            [⟨elemPath p (k + j), "missing_in_clone", ra.getD j .undef, .undef, "medium"⟩]
          else
            compareObjects (ra.getD j .undef) (ca.getD j .undef) (elemPath p (k + j)) ig) := by
  induction ra with
  | nil =>
    intro ca p ig k
    rw [compareElems, extraCloneElems_range ca p k]
    simp only [List.length_nil, Nat.zero_le, Nat.zero_max, if_true]
  | cons r rs ih =>
    intro ca p ig k
    match ca with
    | [] =>
      simp only [compareElems]
      rw [extraRealElems_range (r :: rs) p k]
      simp only [List.length_nil, Nat.max_zero]
      apply flatMap_congr_mem
      intro j hj
      have hjlt := List.mem_range.mp hj
      rw [if_neg (by omega), if_pos (Nat.zero_le j)]
    | c :: cs =>
      rw [compareElems, ih cs p ig (k + 1), List.length_cons, List.length_cons,
        Nat.succ_max_succ, List.range_succ_eq_map, List.flatMap_cons, List.flatMap_map]
      rw [if_neg (by omega : ¬(rs.length + 1 ≤ 0)), if_neg (by omega : ¬(cs.length + 1 ≤ 0))]
      simp only [Nat.add_zero, List.getD_cons_zero]
      congr 1
      apply flatMap_congr_mem
      intro j _
      simp only [Function.comp, Nat.succ_eq_add_one, List.getD_cons_succ]
      have h1 : (rs.length + 1 ≤ j + 1) = (rs.length ≤ j) := by
        apply propext; omega
      have h2 : (cs.length + 1 ≤ j + 1) = (cs.length ≤ j) := by
        apply propext; omega
      have h3 : k + 1 + j = k + (j + 1) := by omega
      simp only [h1, h2, h3]

/-! Claim theorems -/

/-- C1 counterexample: the claim restricts the absence test to null and undefined, but the
source tests JavaScript falsiness. The inputs 0 and 1 are present (non-null, non-undefined)
primitives of type number, and the recursive comparison would report a value mismatch, yet
generateDiff reports a single missing_response record because 0 is falsy. -/
theorem C1_counterexample :
    getType (Json.num 0) = "number" ∧ getType (Json.num 1) = "number" ∧
    Json.num 0 ≠ Json.null ∧ Json.num 0 ≠ Json.undef ∧
    (generateDiff (Json.num 0) (Json.num 1) DEFAULT_IGNORE_FIELDS).details.map
      (fun d => d.type) = ["missing_response"] ∧
    compareObjects (Json.num 0) (Json.num 1) "" DEFAULT_IGNORE_FIELDS =
      [⟨"<root>", "value_mismatch", Json.num 0, Json.num 1, "high"⟩] := by
  refine ⟨rfl, rfl, ?_, ?_, rfl, rfl⟩
  · intro h; exact Json.noConfusion h
  · intro h; exact Json.noConfusion h

/-- C1 (amended): generateDiff applies its edge policy in priority order, with absence
meaning JavaScript falsiness (null, undefined, false, 0, or the empty string): when both
inputs are falsy the result has no differences; when exactly one input is falsy the result
is a single record at path root of sentinel type missing_response with severity high whose
real and clone fields are the two arguments in order; and when both inputs are truthy the
result is assembled from the recursive comparison compareObjects. -/
theorem C1_generateDiff_edge_policy_falsy (r c : Json) (ig : List String) :
    (falsy r = true → falsy c = true → generateDiff r c ig = ⟨false, ⟨0, []⟩, []⟩) ∧
    (falsy r ≠ falsy c → generateDiff r c ig =
      ⟨true, ⟨1, ["<root>"]⟩, [⟨"<root>", "missing_response", r, c, "high"⟩]⟩) ∧
    (falsy r = false → falsy c = false →
      generateDiff r c ig =
        ⟨decide ((compareObjects r c "" ig).length > 0),
         ⟨(compareObjects r c "" ig).length,
          (compareObjects r c "" ig).map (fun d => d.path)⟩,
         compareObjects r c "" ig⟩) := by
  refine ⟨?_, ?_, ?_⟩
  · intro hr hc
    simp [generateDiff, hr, hc]
  · intro hne
    cases hr : falsy r <;> cases hc : falsy c
    · exact absurd (hr.trans hc.symm) hne
    · simp [generateDiff, hr, hc]
    · simp [generateDiff, hr, hc]
    · exact absurd (hr.trans hc.symm) hne
  · intro hr hc
    simp [generateDiff, hr, hc]

/-- C1 witness: generateDiff with one null side yields the single missing_response root
record, and swapping the arguments swaps the real and clone fields. -/
theorem C1_witness :
    generateDiff Json.null (Json.obj [("a", Json.num 1)]) DEFAULT_IGNORE_FIELDS =
      ⟨true, ⟨1, ["<root>"]⟩,
       [⟨"<root>", "missing_response", Json.null, Json.obj [("a", Json.num 1)], "high"⟩]⟩ ∧
    generateDiff (Json.obj [("a", Json.num 1)]) Json.null DEFAULT_IGNORE_FIELDS =
      ⟨true, ⟨1, ["<root>"]⟩,
       [⟨"<root>", "missing_response", Json.obj [("a", Json.num 1)], Json.null, "high"⟩]⟩ :=
  ⟨(C1_generateDiff_edge_policy_falsy Json.null (Json.obj [("a", Json.num 1)])
      DEFAULT_IGNORE_FIELDS).2.1 (by decide),
   (C1_generateDiff_edge_policy_falsy (Json.obj [("a", Json.num 1)]) Json.null
      DEFAULT_IGNORE_FIELDS).2.1 (by decide)⟩

/-- C2: reflexivity. For every JSON value v and every ignore list, generateDiff v v ig has
hasDifferences false, a zero summary count, and an empty details list. -/
theorem C2_generateDiff_reflexivity (v : Json) (ig : List String) :
    (generateDiff v v ig).hasDifferences = false ∧
    (generateDiff v v ig).summary.count = 0 ∧
    (generateDiff v v ig).details = [] := by
  cases hf : falsy v
  · have h := compareObjects_self v "" ig
    refine ⟨?_, ?_, ?_⟩ <;> simp [generateDiff, hf, h]
  · refine ⟨?_, ?_, ?_⟩ <;> simp [generateDiff, hf]

/-- C3: type-mismatch short circuit. Whenever the two kinds computed by getType differ,
compareObjects emits exactly one type_mismatch record, severity high, at the current path
(or the root marker when the path is empty), with no further records for the subtree. -/
theorem C3_type_mismatch_short_circuit (r c : Json) (p : String) (ig : List String)
    (h : getType r ≠ getType c) :
    compareObjects r c p ig =
      [⟨(if p = "" then "<root>" else p), "type_mismatch", r, c, "high"⟩] := by
  rw [compareObjects.eq_def, if_pos h, pathOrRoot]

/-- C3 witness: comparing the object field x holding 1 against x holding the array [1]
produces exactly one type_mismatch record at path x. -/
theorem C3_witness :
    getType (Json.num 1) ≠ getType (Json.arr [Json.num 1]) ∧
    compareObjects (Json.num 1) (Json.arr [Json.num 1]) "x" DEFAULT_IGNORE_FIELDS =
      [⟨"x", "type_mismatch", Json.num 1, Json.arr [Json.num 1], "high"⟩] ∧
    (generateDiff (Json.obj [("x", Json.num 1)]) (Json.obj [("x", Json.arr [Json.num 1])])
      DEFAULT_IGNORE_FIELDS).details =
      [⟨"x", "type_mismatch", Json.num 1, Json.arr [Json.num 1], "high"⟩] :=
  ⟨by decide,
   by
    rw [C3_type_mismatch_short_circuit (Json.num 1) (Json.arr [Json.num 1]) "x"
      DEFAULT_IGNORE_FIELDS (by decide)]
    rfl,
   rfl⟩

/-- C4: array comparison emits an array_length_mismatch record at path.length with severity
medium carrying the two lengths exactly when the lengths differ, and independently walks
indices 0 to max(length) - 1, emitting missing_in_real or missing_in_clone at path[i] for
indices beyond one side and recursing at path[i] for shared indices; on the two-versus-three
element example this yields exactly the length record plus one missing record at items[2]. -/
theorem C4_array_length_and_elementwise (ra ca : List Json) (p : String) (ig : List String) :
    (compareArrays ra ca p ig =
      (if ra.length = ca.length then []
       else [⟨p ++ ".length", "array_length_mismatch",
              .num ra.length, .num ca.length, "medium"⟩]) ++
      (List.range (max ra.length ca.length)).flatMap (fun i =>
        if ra.length ≤ i then
          [⟨elemPath p i, "missing_in_real", .undef, ca.getD i .undef, "medium"⟩]
        else if ca.length ≤ i then
          [⟨elemPath p i, "missing_in_clone", ra.getD i .undef, .undef, "medium"⟩]
        else compareObjects (ra.getD i .undef) (ca.getD i .undef) (elemPath p i) ig)) ∧
    (generateDiff (Json.obj [("items", Json.arr [Json.str "a", Json.str "b"])])
        (Json.obj [("items", Json.arr [Json.str "a", Json.str "b", Json.str "c"])])
        DEFAULT_IGNORE_FIELDS).details =
      [⟨"items.length", "array_length_mismatch", Json.num 2, Json.num 3, "medium"⟩,
       ⟨"items[2]", "missing_in_real", Json.undef, Json.str "c", "medium"⟩] ∧
    (generateDiff (Json.obj [("items", Json.arr [Json.str "a", Json.str "b"])])
        (Json.obj [("items", Json.arr [Json.str "a", Json.str "b", Json.str "c"])])
        DEFAULT_IGNORE_FIELDS).hasDifferences = true := by
  refine ⟨?_, rfl, rfl⟩
  rw [compareArrays, compareElems_range ra ca p ig 0]
  congr 1
  · by_cases h : ra.length = ca.length <;> simp [lengthRecord, h]
  · apply flatMap_congr_mem
    intro j _
    simp only [Nat.zero_add]

/-- C5: shouldIgnoreField holds exactly when the bare field name is literally in the ignore
list, or the full path is literally in the list, or the full path matches a wildcard entry
compiled by replacing each star with a match-anything sequence and anchoring both ends; an
ignored key is skipped entirely during object comparison, with no record and no descent,
even when the key is missing on one side; and the wildcard example with pattern *.id over
the nested user objects reports no differences. -/
theorem C5_should_ignore_field (fullPath fieldName : String) (ig : List String) :
    (shouldIgnoreField fullPath fieldName ig = true ↔
      fieldName ∈ ig ∨ fullPath ∈ ig ∨
      ∃ pat ∈ ig, pat.toList.contains '*' = true ∧
        rmatch (compilePattern pat.toList) fullPath.toList = true) ∧
    (∀ (v : Json) (rest : List (String × Json)) (seen : List String)
        (cf : List (String × Json)) (p : String),
      shouldIgnoreField (joinPath p fieldName) fieldName ig = true →
      seen.contains fieldName = false →
      compareOwnKeys ((fieldName, v) :: rest) seen cf p ig =
        compareOwnKeys rest (fieldName :: seen) cf p ig) ∧
    (∀ (v : Json) (rest : List (String × Json)) (seen : List String)
        (rf : List (String × Json)) (p : String),
      shouldIgnoreField (joinPath p fieldName) fieldName ig = true →
      seen.contains fieldName = false →
      hasKey rf fieldName = false →
      cloneOnlyKeys ((fieldName, v) :: rest) seen rf p ig =
        cloneOnlyKeys rest (fieldName :: seen) rf p ig) ∧
    (generateDiff
      (Json.obj [("user", Json.obj [("id", Json.str "1"),
        ("profile", Json.obj [("id", Json.str "10")])])])
      (Json.obj [("user", Json.obj [("id", Json.str "99"),
        ("profile", Json.obj [("id", Json.str "88")])])])
      ["*.id"]).hasDifferences = false := by
  refine ⟨?_, ?_, ?_, rfl⟩
  · simp [shouldIgnoreField, List.any_eq_true, or_assoc]
  · intro v rest seen cf p hig hseen
    rw [compareOwnKeys,
      if_neg (fun hC => Bool.noConfusion (hseen.symm.trans hC)),
      if_pos hig, List.nil_append]
  · intro v rest seen rf p hig hseen hkey
    rw [cloneOnlyKeys,
      if_neg (fun hC => by rw [hseen, hkey] at hC; exact Bool.noConfusion hC),
      if_pos hig, List.nil_append]

/-- C5 witness: the wildcard pattern *.id ignores the path user.id, both through the
characterization of shouldIgnoreField and through the skip step in object comparison. -/
theorem C5_witness :
    ("id" ∈ (["*.id"] : List String) ∨ "user.id" ∈ (["*.id"] : List String) ∨
      ∃ pat ∈ (["*.id"] : List String), pat.toList.contains '*' = true ∧
        rmatch (compilePattern pat.toList) "user.id".toList = true) ∧
    compareOwnKeys [("id", Json.str "1")] [] [("id", Json.str "99")] "user" ["*.id"] =
      compareOwnKeys [] ["id"] [("id", Json.str "99")] "user" ["*.id"] :=
  ⟨(C5_should_ignore_field "user.id" "id" ["*.id"]).1.mp (by rfl),
   (C5_should_ignore_field "user.id" "id" ["*.id"]).2.1 (Json.str "1") [] []
     [("id", Json.str "99")] "user" (by rfl) (by rfl)⟩

/-- C6: when an exact-path record is found, a type_mismatch, value_mismatch or
array_length_mismatch record classifies the node as diff-mismatch for both sides; a
missing_in_real record classifies as diff-mismatch only on the clone side; a
missing_in_clone record classifies as diff-mismatch only on the real side; and rendering a
side never visits a path absent from that side's tree, so no lookup is attempted there. -/
theorem C6_exact_path_classification (diff : DiffResult) (path : String) (d : DiffRecord)
    (hfind : findPath diff.details path = some d) :
    ((d.type = "type_mismatch" ∨ d.type = "value_mismatch" ∨
        d.type = "array_length_mismatch") →
      getDiffClassForPath diff path "real" = "diff-mismatch" ∧
      getDiffClassForPath diff path "clone" = "diff-mismatch") ∧
    (d.type = "missing_in_real" →
      getDiffClassForPath diff path "clone" = "diff-mismatch" ∧
      getDiffClassForPath diff path "real" = "") ∧
    (d.type = "missing_in_clone" →
      getDiffClassForPath diff path "real" = "diff-mismatch" ∧
      getDiffClassForPath diff path "clone" = "") ∧
    "foo" ∉ visitedPaths (Json.obj [("bar", Json.num 1)]) "" := by
  have hcls : ∀ m : String, getDiffClassForPath diff path m =
      (if d.type == "value_mismatch" || d.type == "type_mismatch" ||
          d.type == "array_length_mismatch" then "diff-mismatch"
       else if d.type == "missing_in_real" then (if m == "clone" then "diff-mismatch" else "")
       else if d.type == "missing_in_clone" then (if m == "real" then "diff-mismatch" else "")
       else "") := by
    intro m
    simp only [getDiffClassForPath, hfind]
  refine ⟨?_, ?_, ?_, by decide⟩
  · rintro (h | h | h) <;>
      exact ⟨by rw [hcls "real", h]; rfl, by rw [hcls "clone", h]; rfl⟩
  · intro h
    exact ⟨by rw [hcls "clone", h]; rfl, by rw [hcls "real", h]; rfl⟩
  · intro h
    exact ⟨by rw [hcls "real", h]; rfl, by rw [hcls "clone", h]; rfl⟩

/-- C6 witness: with a single missing_in_clone record at path foo, the real side is
classified diff-mismatch at foo and the clone side receives the empty class. -/
theorem C6_witness :
    getDiffClassForPath
      ⟨true, ⟨1, ["foo"]⟩, [⟨"foo", "missing_in_clone", Json.num 1, Json.undef, "medium"⟩]⟩
      "foo" "real" = "diff-mismatch" ∧
    getDiffClassForPath
      ⟨true, ⟨1, ["foo"]⟩, [⟨"foo", "missing_in_clone", Json.num 1, Json.undef, "medium"⟩]⟩
      "foo" "clone" = "" :=
  (C6_exact_path_classification
    ⟨true, ⟨1, ["foo"]⟩, [⟨"foo", "missing_in_clone", Json.num 1, Json.undef, "medium"⟩]⟩
    "foo" ⟨"foo", "missing_in_clone", Json.num 1, Json.undef, "medium"⟩ rfl).2.2.1 rfl

/-- C7 counterexample: the claim extends the hasDifferences fallback to the root path, but
the source guards that fallback with a non-empty-path test. With one value_mismatch record
at path a, the root path has no exact record, its last field name is empty and not in the
ignored set, hasDifferences is true, no type_mismatch exists anywhere, and yet the root is
classified with the empty string instead of diff-match. -/
theorem C7_counterexample :
    findPath [⟨"a", "value_mismatch", Json.num 1, Json.num 2, "high"⟩] "" = none ∧
    isIgnoredField ""
      ⟨true, ⟨1, ["a"]⟩, [⟨"a", "value_mismatch", Json.num 1, Json.num 2, "high"⟩]⟩ = false ∧
    getDiffClassForPath
      ⟨true, ⟨1, ["a"]⟩, [⟨"a", "value_mismatch", Json.num 1, Json.num 2, "high"⟩]⟩
      "" "real" = "" ∧
    getDiffClassForPath
      ⟨true, ⟨1, ["a"]⟩, [⟨"a", "value_mismatch", Json.num 1, Json.num 2, "high"⟩]⟩
      "" "real" ≠ "diff-match" :=
  ⟨rfl, rfl, rfl, by decide⟩

/-- C7 (amended): for every non-empty path with no exact-path record and whose last field
name is not in the ignored set, the node is classified diff-mismatch when the truncated
parent path (the text before the last dot or, failing a dot, before the last bracket) or
the root marker carries a recorded type_mismatch, and diff-match otherwise while the diff
has differences; when the diff has no differences the class is empty; and the root (empty)
path with no exact record is always left with the empty class. -/
theorem C7_fallback_classification (diff : DiffResult) (path : String) (mode : String)
    (hfind : findPath diff.details path = none)
    (hign : isIgnoredField path diff = false) :
    (path ≠ "" → diff.hasDifferences = true →
      getDiffClassForPath diff path mode =
        (if typeMismatchAt diff.details (parentPathOf path) = true ∨
            typeMismatchAt diff.details "<root>" = true
         then "diff-mismatch" else "diff-match")) ∧
    (diff.hasDifferences = false → getDiffClassForPath diff path mode = "") ∧
    (path = "" → getDiffClassForPath diff path mode = "") := by
  have hbase : getDiffClassForPath diff path mode =
      (if diff.hasDifferences && path != "" then
        (if typeMismatchAt diff.details (parentPathOf path) then "diff-mismatch"
         else if typeMismatchAt diff.details "<root>" then "diff-mismatch"
         else "diff-match")
       else "") := by
    simp [getDiffClassForPath, hfind, hign]
  refine ⟨?_, ?_, ?_⟩
  · intro hne hdiff
    have hbne : (path != "") = true := bne_iff_ne.mpr hne
    have hcond : (diff.hasDifferences && path != "") = true := by
      simp [hdiff, hbne]
    rw [hbase, if_pos hcond]
    by_cases hp : typeMismatchAt diff.details (parentPathOf path) = true
    · rw [if_pos hp, if_pos (Or.inl hp)]
    · rw [if_neg hp]
      by_cases hr : typeMismatchAt diff.details "<root>" = true
      · rw [if_pos hr, if_pos (Or.inr hr)]
      · rw [if_neg hr, if_neg (by simp [hp, hr])]
  · intro h0
    rw [hbase, h0]
    rfl
  · intro hp
    rw [hbase, hp]
    simp

/-- C7 witness: with one value_mismatch record at path a and no type mismatches, the
record-free non-empty path b is classified diff-match. -/
theorem C7_witness :
    getDiffClassForPath
      ⟨true, ⟨1, ["a"]⟩, [⟨"a", "value_mismatch", Json.num 1, Json.num 2, "high"⟩]⟩
      "b" "real" = "diff-match" := by
  rw [(C7_fallback_classification
    ⟨true, ⟨1, ["a"]⟩, [⟨"a", "value_mismatch", Json.num 1, Json.num 2, "high"⟩]⟩
    "b" "real" rfl rfl).1 (by decide) rfl]
  decide

/-- C9: for every diff whose records all live at the root marker path, the renderer's
lookup at the empty root path finds nothing, the ignored-name check fails, and the
hasDifferences fallback is disabled by the empty path, so the root node of either side
receives the empty classification; the renderer does consult the empty path when the
rendered root value is a null leaf. -/
theorem C9_root_records_unhighlighted (diff : DiffResult) (mode : String)
    (h : ∀ d ∈ diff.details, d.path = "<root>") :
    getDiffClassForPath diff "" mode = "" ∧ visitedPaths Json.null "" = [""] := by
  have hfind : findPath diff.details "" = none := by
    unfold findPath
    rw [List.find?_eq_none]
    intro d hd
    simp [h d hd]
  have hign : isIgnoredField "" diff = false := rfl
  refine ⟨?_, rfl⟩
  simp [getDiffClassForPath, hfind, hign]

/-- C9 witness: a diff holding only the missing_response root record classifies the empty
root path with the empty string on both sides. -/
theorem C9_witness :
    getDiffClassForPath
      ⟨true, ⟨1, ["<root>"]⟩,
       [⟨"<root>", "missing_response", Json.null, Json.obj [("a", Json.num 1)], "high"⟩]⟩
      "" "real" = "" ∧
    getDiffClassForPath
      ⟨true, ⟨1, ["<root>"]⟩,
       [⟨"<root>", "missing_response", Json.null, Json.obj [("a", Json.num 1)], "high"⟩]⟩
      "" "clone" = "" :=
  ⟨(C9_root_records_unhighlighted
      ⟨true, ⟨1, ["<root>"]⟩,
       [⟨"<root>", "missing_response", Json.null, Json.obj [("a", Json.num 1)], "high"⟩]⟩
      "real" (by decide)).1,
   (C9_root_records_unhighlighted
      ⟨true, ⟨1, ["<root>"]⟩,
       [⟨"<root>", "missing_response", Json.null, Json.obj [("a", Json.num 1)], "high"⟩]⟩
      "clone" (by decide)).1⟩

/-- C10 counterexample: the claim says a record-free non-root path ending in internalDate
is always classified diff-match when the diff has differences, but when the truncated
parent path carries a type_mismatch record the source classifies it diff-mismatch. -/
theorem C10_counterexample :
    lastSegment "x.internalDate" = "internalDate" ∧
    findPath [⟨"x", "type_mismatch", Json.obj [("internalDate", Json.str "5")],
      Json.num 3, "high"⟩] "x.internalDate" = none ∧
    getDiffClassForPath
      ⟨true, ⟨1, ["x"]⟩, [⟨"x", "type_mismatch", Json.obj [("internalDate", Json.str "5")],
        Json.num 3, "high"⟩]⟩ "x.internalDate" "real" = "diff-mismatch" ∧
    ("diff-mismatch" : String) ≠ "diff-match" :=
  ⟨rfl, rfl, rfl, by decide⟩

/-- C10 (amended): the renderer's ignored classification is decided by the fixed five-name
list id, labelId, threadId, messageId, historyId applied to the last path segment, with no
access to the ignore list given to the engine; the engine's default list has seven entries
including internalDate and sizeEstimate, which the renderer list omits; hence a path ending
in internalDate or sizeEstimate is never classified diff-ignored, and a record-free such
path is classified diff-match when the diff has differences and neither the truncated
parent path nor the root marker carries a recorded type_mismatch. -/
theorem C10_renderer_ignored_list (diff : DiffResult) (path : String) (mode : String) :
    (isIgnoredField path diff = ignoredPatterns.contains (lastSegment path)) ∧
    (DEFAULT_IGNORE_FIELDS.length = 7 ∧
      "internalDate" ∈ DEFAULT_IGNORE_FIELDS ∧ "sizeEstimate" ∈ DEFAULT_IGNORE_FIELDS ∧
      "internalDate" ∉ ignoredPatterns ∧ "sizeEstimate" ∉ ignoredPatterns) ∧
    (lastSegment path = "internalDate" ∨ lastSegment path = "sizeEstimate" →
      getDiffClassForPath diff path mode ≠ "diff-ignored") ∧
    (lastSegment path = "internalDate" ∨ lastSegment path = "sizeEstimate" →
      findPath diff.details path = none →
      path ≠ "" → diff.hasDifferences = true →
      typeMismatchAt diff.details (parentPathOf path) = false →
      typeMismatchAt diff.details "<root>" = false →
      getDiffClassForPath diff path mode = "diff-match") := by
  have hignof : ∀ (hl : lastSegment path = "internalDate" ∨ lastSegment path = "sizeEstimate"),
      isIgnoredField path diff = false := by
    intro hl
    unfold isIgnoredField
    rcases hl with hl | hl <;> rw [hl] <;> rfl
  refine ⟨rfl, ⟨rfl, by decide, by decide, by decide, by decide⟩, ?_, ?_⟩
  · intro hl
    rcases hfd : findPath diff.details path with _ | d
    · simp only [getDiffClassForPath, hfd, hignof hl]
      split_ifs <;> simp_all
    · simp only [getDiffClassForPath, hfd]
      split_ifs <;> simp_all
  · intro hl hfd hne hdiff hpm hrm
    have hbne : (path != "") = true := bne_iff_ne.mpr hne
    simp only [getDiffClassForPath, hfd, hignof hl, hdiff, hbne, hpm, hrm,
      Bool.false_eq_true, if_false, Bool.and_self, if_true]

/-- C10 witness: a record-free path ending in internalDate, with differences present
elsewhere and no type mismatch at its parent or at the root, is classified diff-match. -/
theorem C10_witness :
    getDiffClassForPath
      ⟨true, ⟨1, ["a"]⟩, [⟨"a", "value_mismatch", Json.num 1, Json.num 2, "high"⟩]⟩
      "x.internalDate" "real" = "diff-match" :=
  (C10_renderer_ignored_list
    ⟨true, ⟨1, ["a"]⟩, [⟨"a", "value_mismatch", Json.num 1, Json.num 2, "high"⟩]⟩
    "x.internalDate" "real").2.2.2 (Or.inl rfl) rfl (by decide) rfl rfl rfl
